import Mathlib

/-!
Verification of the arrow-flight-js protocol client engine.

Shallow embedding of the TypeScript sources in `src/src/client.ts`,
`src/src/ipc.ts` and the location parser module.  Machine strings are
modelled as Lean `String` values (a JS string is a sequence of code
units; the inputs considered here are all plain ASCII/Unicode text, so
the `List Char` backing of `String` is an adequate model).  Byte
buffers (`Buffer` / `Uint8Array`) are modelled as `List Nat` of byte
values.
-/

namespace ArrowFlight

/-! ## JS string primitives

Models of the JavaScript string operations used by the client:
`toLowerCase` (ASCII case folding via `Char.toLower`), `startsWith`,
and `slice(n)` (modelled on the character list backing a `String`).
-/

/-- Model of JS `String.prototype.toLowerCase` (ASCII case folding). -/
def lowerStr (s : String) : String := ⟨s.data.map Char.toLower⟩

/-- Boolean test that `p` is a leading segment of `l` (JS `startsWith` on
character lists). -/
def charsLead : List Char → List Char → Bool
  | [], _ => true
  | _ :: _, [] => false
  | p :: ps, c :: cs => p == c && charsLead ps cs

/-- Model of JS `String.prototype.startsWith`. -/
def strStartsWith (s p : String) : Bool := charsLead p.data s.data

/-- Model of JS `String.prototype.slice(n)` for `0 ≤ n`. -/
def strDrop (s : String) (n : Nat) : String := ⟨s.data.drop n⟩

/-- Model of JS `String.prototype.slice(0, -n)`: drop the last `n`
characters. -/
def strDropRight (s : String) (n : Nat) : String := ⟨s.data.take (s.data.length - n)⟩

/-- Cut a character list at the first occurrence of the separator:
the segment before it and the remainder after it. -/
def breakAt (sep : List Char) : List Char → Option (List Char × List Char)
  | [] => none
  | c :: cs =>
    if charsLead sep (c :: cs) then some ([], (c :: cs).drop sep.length)
    else
      match breakAt sep cs with
      | some (a, b) => some (c :: a, b)
      | none => none

/-- Repeatedly cut at the separator; the fuel bounds the number of
cuts (each cut consumes at least one character of a non-empty
separator, so `length + 1` fuel always suffices). -/
def splitFuel (sep : List Char) : Nat → List Char → List (List Char)
  | 0, l => [l]
  | fuel + 1, l =>
    match breakAt sep l with
    | none => [l]
    | some (a, b) => a :: splitFuel sep fuel b

/-- Model of string splitting on a separator (as in
`String.prototype.split` for the plain separators used here). -/
def strSplitOn (s : String) (sep : String) : List String :=
  match sep.data with
  | [] => [s]
  | c :: cs => (splitFuel (c :: cs) (s.data.length + 1) s.data).map String.mk

/-- A byte buffer (`Buffer` / `Uint8Array`): a list of byte values. -/
abbrev Bytes := List Nat

/-- UTF-8 encoding of one character (code point to 1–4 bytes). -/
def utf8EncodeCharNat (c : Char) : Bytes :=
  let n := c.toNat
  if n < 0x80 then [n]
  else if n < 0x800 then [0xC0 + n / 64, 0x80 + n % 64]
  else if n < 0x10000 then [0xE0 + n / 4096, 0x80 + n / 64 % 64, 0x80 + n % 64]
  else [0xF0 + n / 262144, 0x80 + n / 4096 % 64, 0x80 + n / 64 % 64, 0x80 + n % 64]

/-- Model of `Buffer.from(s)` (UTF-8 encoding of a string). -/
def utf8Bytes (s : String) : Bytes := (s.data.map utf8EncodeCharNat).flatten

/-- UTF-8 decoding of a byte list (the inputs exercised by the claims
are valid UTF-8; on truncated input the remaining bytes are dropped,
standing in for JS replacement-character behaviour). -/
def utf8DecodeList : Bytes → List Char
  | [] => []
  | b :: rest =>
    if b < 0x80 then Char.ofNat b :: utf8DecodeList rest
    else if b < 0xE0 then
      match rest with
      | b2 :: rest2 => Char.ofNat ((b - 0xC0) * 64 + (b2 - 0x80)) :: utf8DecodeList rest2
      | [] => []
    else if b < 0xF0 then
      match rest with
      | b2 :: b3 :: rest3 =>
        Char.ofNat ((b - 0xE0) * 4096 + (b2 - 0x80) * 64 + (b3 - 0x80)) :: utf8DecodeList rest3
      | _ => []
    else
      match rest with
      | b2 :: b3 :: b4 :: rest4 =>
        Char.ofNat ((b - 0xF0) * 262144 + (b2 - 0x80) * 4096 + (b3 - 0x80) * 64 + (b4 - 0x80)) ::
          utf8DecodeList rest4
      | _ => []
  termination_by l => l.length
  decreasing_by all_goals (simp_wf; try omega)

/-- Model of `Buffer.prototype.toString("utf8")` / `String(buffer)`. -/
def utf8Decode (b : Bytes) : String := ⟨utf8DecodeList b⟩

/-! ## Error taxonomy (`src/src/client.ts` lines 2332–2570)

`FlightErrorCode` is the closed sixteen-member enumeration, and
`FlightError` the error record `{message, code, details?, metadata?,
grpcCode?}` (the `cause` field only chains the original JS error object
and carries no protocol information, so it is not modelled).
-/

/-- The closed error-kind enumeration `FlightErrorCode`. -/
inductive FlightErrorCode where
  | CANCELLED
  | UNKNOWN
  | INVALID_ARGUMENT
  | DEADLINE_EXCEEDED
  | NOT_FOUND
  | ALREADY_EXISTS
  | PERMISSION_DENIED
  | RESOURCE_EXHAUSTED
  | FAILED_PRECONDITION
  | ABORTED
  | OUT_OF_RANGE
  | UNIMPLEMENTED
  | INTERNAL
  | UNAVAILABLE
  | DATA_LOSS
  | UNAUTHENTICATED
  deriving DecidableEq, Repr

/-- A metadata value carried by transport (gRPC) metadata: either a
string or a binary buffer (`-bin` keys). -/
inductive MetaVal where
  | str (s : String)
  | bin (b : Bytes)
  deriving DecidableEq, Repr

/-- The `FlightError` record (constructor at `client.ts` 2338–2354). -/
structure FlightError where
  message : String
  code : FlightErrorCode
  details : Option String := none
  metadata : Option (List (String × String)) := none
  grpcCode : Option Int := none
  deriving DecidableEq, Repr

/-- The shape of a gRPC `ServiceError` as used by `fromGrpcError`:
a numeric status code, a message, a details string, and optional
transport metadata (given by its `getMap()` view: one value per key). -/
structure GrpcServiceError where
  code : Int
  message : String
  details : String
  metadata : Option (List (String × MetaVal)) := none

/-- The possible JS values reaching `FlightError.fromGrpcError`
(`client.ts` 2361–2387): a `FlightError` (passes through), a gRPC
`ServiceError` (object with numeric `code` and `message`), any other
`Error` (only its message matters), or a non-`Error` value given by
its `String(...)` form. -/
inductive JsError where
  | flight (e : FlightError)
  | grpcService (e : GrpcServiceError)
  | jsError (message : String)
  | other (stringForm : String)

/-- Numeric values of the grpc-js `status` enum entries used in the
mapping table at `client.ts` 2505–2525 (grpc-js assigns CANCELLED = 1
through UNAUTHENTICATED = 16, with OK = 0). -/
def grpcStatusToFlightCode (code : Int) : FlightErrorCode :=
  if code = 1 then .CANCELLED
  else if code = 2 then .UNKNOWN
  else if code = 3 then .INVALID_ARGUMENT
  else if code = 4 then .DEADLINE_EXCEEDED
  else if code = 5 then .NOT_FOUND
  else if code = 6 then .ALREADY_EXISTS
  else if code = 7 then .PERMISSION_DENIED
  else if code = 8 then .RESOURCE_EXHAUSTED
  else if code = 9 then .FAILED_PRECONDITION
  else if code = 10 then .ABORTED
  else if code = 11 then .OUT_OF_RANGE
  else if code = 12 then .UNIMPLEMENTED
  else if code = 13 then .INTERNAL
  else if code = 14 then .UNAVAILABLE
  else if code = 15 then .DATA_LOSS
  else if code = 16 then .UNAUTHENTICATED
  else .UNKNOWN

/-- Embedding of `extractGrpcMetadata` (`client.ts` 2532–2549): keep
only string-valued entries; if none remain (or no metadata was given)
the result is `none`, never an empty object. -/
def extractGrpcMetadata (metadata : Option (List (String × MetaVal))) :
    Option (List (String × String)) :=
  match metadata with
  | none => none
  | some m =>
    let result := m.filterMap fun e =>
      match e.2 with
      | .str s => some (e.1, s)
      | .bin _ => none
    if result.isEmpty then none else some result

/-- Embedding of `FlightError.fromGrpcError` (`client.ts` 2361–2387). -/
def FlightError.fromGrpcError : JsError → FlightError
  | .flight e => e
  | .grpcService e =>
    let code := grpcStatusToFlightCode e.code
    let metadata := extractGrpcMetadata e.metadata
    let message := if 0 < e.details.length then e.details else e.message
    { message := message
      code := code
      details := if 0 < e.details.length then some e.details else none
      metadata := metadata
      grpcCode := some e.code }
  | .jsError m => { message := m, code := .UNKNOWN }
  | .other s => { message := s, code := .UNKNOWN }

/-- The string-valued entries of a transport metadata map, in order
(the spec's "string-valued metadata entries"). -/
def stringEntries (m : List (String × MetaVal)) : List (String × String) :=
  m.filterMap fun e =>
    match e.2 with
    | .str s => some (e.1, s)
    | .bin _ => none

/-! ## Base64 (model of `Buffer.from(s).toString("base64")`) -/

/-- The standard base64 alphabet. -/
def base64Alphabet : List Char :=
  "ABCDEFGHIJKLMNOPQRSTUVWXYZabcdefghijklmnopqrstuvwxyz0123456789+/".data

/-- Character at index `n` of the base64 alphabet. -/
def b64Char (n : Nat) : Char := base64Alphabet.getD n 'A'

/-- Standard base64 encoding of a byte list, three bytes per group with
`=` padding. -/
def b64Groups : List Nat → List Char
  | b1 :: b2 :: b3 :: rest =>
    b64Char (b1 / 4) :: b64Char (b1 % 4 * 16 + b2 / 16) ::
      b64Char (b2 % 16 * 4 + b3 / 64) :: b64Char (b3 % 64) :: b64Groups rest
  | [b1, b2] => [b64Char (b1 / 4), b64Char (b1 % 4 * 16 + b2 / 16), b64Char (b2 % 16 * 4), '=']
  | [b1] => [b64Char (b1 / 4), b64Char (b1 % 4 * 16), '=', '=']
  | [] => []

/-- Model of `Buffer.from(s).toString("base64")`: UTF-8 encode then
base64. -/
def base64Encode (s : String) : String :=
  ⟨b64Groups (utf8Bytes s)⟩

/-! ## Outgoing gRPC metadata (model of `@grpc/grpc-js` `Metadata`)

grpc-js `Metadata` stores one or more values per normalized
(lowercased) key; `set` replaces all values for a key, `get` returns
the list of values for a key.  Only string values are produced by
`createMetadata`, so values are plain strings here.
-/

/-- An outgoing metadata map: normalized key / value pairs. -/
abbrev GrpcMetadata := List (String × String)

/-- Model of `Metadata.prototype.set`: normalize the key and replace
any existing values for it. -/
def mdSet (m : GrpcMetadata) (key value : String) : GrpcMetadata :=
  let k := lowerStr key
  (m.filter fun e => e.1 != k) ++ [(k, value)]

/-- Model of `Metadata.prototype.get`: all values stored under the
normalized key. -/
def mdGet (m : GrpcMetadata) (key : String) : List String :=
  (m.filter fun e => e.1 == lowerStr key).map (·.2)

/-! ## Client options (`FlightClientOptions`, `client.ts` 2005–2207) -/

/-- The `auth` tagged union (`FlightAuthOptions`). -/
inductive FlightAuth where
  | basic (username password : String)
  | bearer (token : String)
  | mtls (cert key : String) (ca : Option String)
  | handshake (payload : Bytes)

/-- The `tls` option: absent, an explicit boolean, or a `TlsOptions`
object (whose fields only drive credential building, which no claim
touches, so the object's contents are not modelled). -/
inductive TlsSetting where
  | unset
  | flag (b : Bool)
  | tlsOpts
  deriving DecidableEq, Repr

/-- The client construction options (fields `credentials` and
`channelOptions` only affect credential/channel building and are not
needed by any claim). -/
structure FlightClientOptions where
  host : String
  port : Option Nat := none
  tls : TlsSetting := .unset
  auth : Option FlightAuth := none

/-- The JS test `this.options.tls !== false`. -/
def tlsNotFalse : TlsSetting → Bool
  | .flag false => false
  | _ => true

/-- Embedding of the `address` getter (`client.ts` 845–848):
`options.port ?? (options.tls !== false ? 443 : 80)`, then
`host:port`. -/
def address (o : FlightClientOptions) : String :=
  let port := o.port.getD (if tlsNotFalse o.tls then 443 else 80)
  o.host ++ ":" ++ toString port

/-! ## createMetadata

`client.ts` contains two snapshots of `FlightClient`.  In the first
(`createMetadata` at lines 211–236) the configured-auth branch runs
unconditionally after the bearer-token branch, so a configured
basic/bearer auth header overwrites the bearer-token header.  In the
second, full-featured snapshot (lines 952–977) the configured-auth
branch is in the `else` of the bearer-token check, so a set bearer
token takes precedence.  Both are embedded.
-/

/-- Embedding of the first `createMetadata` (lines 211–236): bearer
token first, then configured auth (overwriting), then caller headers. -/
def createMetadataV1 (bearerToken : Option String) (auth : Option FlightAuth)
    (headers : List (String × String)) : GrpcMetadata :=
  let m : GrpcMetadata := []
  let m := match bearerToken with
    | some t => mdSet m "authorization" ("Bearer " ++ t)
    | none => m
  let m := match auth with
    | some (.basic u p) => mdSet m "authorization" ("Basic " ++ base64Encode (u ++ ":" ++ p))
    | some (.bearer t) => mdSet m "authorization" ("Bearer " ++ t)
    | _ => m
  headers.foldl (fun m e => mdSet m e.1 e.2) m

/-- Embedding of the second `createMetadata` (lines 952–977): the
configured-auth branch runs only when no bearer token is set; caller
headers are applied last. -/
def createMetadataV2 (bearerToken : Option String) (auth : Option FlightAuth)
    (headers : List (String × String)) : GrpcMetadata :=
  let m : GrpcMetadata :=
    match bearerToken with
    | some t => mdSet [] "authorization" ("Bearer " ++ t)
    | none =>
      match auth with
      | some (.basic u p) => mdSet [] "authorization" ("Basic " ++ base64Encode (u ++ ":" ++ p))
      | some (.bearer t) => mdSet [] "authorization" ("Bearer " ++ t)
      | _ => []
  headers.foldl (fun m e => mdSet m e.1 e.2) m

/-! ## Connection state machine (`client.ts` 865–905) -/

/-- The `ConnectionState` union. -/
inductive ConnectionState where
  | disconnected
  | connecting
  | connected
  | closed
  deriving DecidableEq, Repr

/-- The mutable session fields of `FlightClient`: `_state`,
`_bearerToken` and the `grpcClient` channel handle (modelled by its
presence). -/
structure ClientState where
  state : ConnectionState := .disconnected
  bearerToken : Option String := none
  grpcClient : Option Unit := none
  deriving DecidableEq, Repr

/-- Outcome of the environment during `connect()`: the channel becomes
ready, or the readiness wait fails with some error.  (A failure is
modelled at `waitForReady`, after the `FlightServiceClient` handle has
been constructed, matching the common failure path; the `catch` block
does not null the handle either way.) -/
inductive ConnectEnv where
  | ready
  | failWith (e : JsError)

/-- Embedding of `connect()` (`client.ts` 865–890): fail fast on a
closed session, no-op when connected, otherwise transition through
`connecting` and end `connected` on success or `disconnected` on
failure (the raised error is routed through `wrapError`, i.e.
`FlightError.fromGrpcError`). -/
def connect (env : ConnectEnv) (c : ClientState) : ClientState × Except FlightError Unit :=
  if c.state = .closed then
    (c, .error { message := "client has been closed", code := .FAILED_PRECONDITION })
  else if c.state = .connected then
    (c, .ok ())
  else
    match env with
    | .ready => ({ c with state := .connected, grpcClient := some () }, .ok ())
    | .failWith e =>
      ({ c with state := .disconnected, grpcClient := some () },
        .error (FlightError.fromGrpcError e))

/-- Embedding of `close()` (`client.ts` 898–905): release the handle,
set state to `closed`, clear the bearer token — unconditionally. -/
def close (_c : ClientState) : ClientState :=
  { state := .closed, bearerToken := none, grpcClient := none }

/-! ## Handshake (`client.ts` 1008–1081)

The handshake registers `data` / `metadata` / `error` / `end` handlers
on the bidirectional stream and settles a promise.  It is embedded as
a fold over the stream's event sequence; the promise can settle only
once (later resolve/reject calls are no-ops), while the handler-local
variables keep being updated.
-/

/-- A wire `HandshakeResponse`: protocol version and payload bytes. -/
structure HandshakeResponse where
  protocolVersion : Nat
  payload : Bytes
  deriving DecidableEq, Repr

/-- The `HandshakeResult` returned to the caller. -/
structure HandshakeResult where
  protocolVersion : Nat
  payload : Bytes
  token : Option String
  deriving DecidableEq, Repr

/-- Incoming response metadata: key / value pairs as exposed by
`Metadata.prototype.get` (keys already normalized). -/
abbrev IncomingMeta := List (String × MetaVal)

/-- All values stored under `key` in incoming metadata. -/
def metaGet (m : IncomingMeta) (key : String) : List MetaVal :=
  (m.filter fun e => e.1 == key).map (·.2)

/-- JS `String(v)` on a metadata value (`Buffer` stringifies via its
UTF-8 `toString`). -/
def jsStringOf : MetaVal → String
  | .str s => s
  | .bin b => utf8Decode b

/-- Embedding of the `metadata` event handler (`client.ts` 1024–1044):
an `authorization: Bearer X` value always (re)sets the token; the
`auth-token-bin` value is used only when no token has been found yet. -/
def extractTokenFromMeta (cur : Option String) (m : IncomingMeta) : Option String :=
  let cur1 :=
    match metaGet m "authorization" with
    | [] => cur
    | v :: _ =>
      let authValue := jsStringOf v
      if strStartsWith (lowerStr authValue) "bearer " then some (strDrop authValue 7) else cur
  match metaGet m "auth-token-bin" with
  | [] => cur1
  | v :: _ =>
    if cur1 = none then
      match v with
      | .str s => some s
      | .bin b => some (utf8Decode b)
    else cur1

/-- The event classes observed by the handshake's stream handlers. -/
inductive HsEvent where
  | data (r : HandshakeResponse)
  | meta (m : IncomingMeta)
  | err (e : JsError)
  | fin

/-- Handler-local state of a handshake in flight: the session, the
last `response`, the `extractedToken`, and the promise settlement. -/
structure HsState where
  client : ClientState
  response : Option HandshakeResponse := none
  extractedToken : Option String := none
  settled : Option (Except FlightError HandshakeResult) := none

/-- One stream event processed by the handshake's handlers
(`client.ts` 1020–1072). -/
def hsStep (s : HsState) : HsEvent → HsState
  | .data r => { s with response := some r }
  | .meta m => { s with extractedToken := extractTokenFromMeta s.extractedToken m }
  | .err e =>
    if s.settled.isSome then s
    else { s with settled := some (.error (FlightError.fromGrpcError e)) }
  | .fin =>
    if s.settled.isSome then s
    else
      match s.response with
      | none =>
        let failure : Except FlightError HandshakeResult :=
          .error { message := "no handshake response received", code := .INTERNAL }
        { s with settled := some failure }
      | some r =>
        let token :=
          if s.extractedToken = none ∧ 0 < r.payload.length then some (utf8Decode r.payload)
          else s.extractedToken
        let client :=
          match token with
          | some t => { s.client with bearerToken := some t }
          | none => s.client
        { s with
          client := client
          settled := some (.ok
            { protocolVersion := r.protocolVersion, payload := r.payload, token := token }) }

/-- Run a handshake against the given response event sequence
(the request write and end-of-writes that precede the events do not
affect the extraction logic and are elided). -/
def runHandshake (c : ClientState) (events : List HsEvent) : HsState :=
  events.foldl hsStep { client := c }

/-! ## Stream bridge (`streamToAsyncIterable`, `client.ts` 1406–1457)

Push events append queue items (`data` / wrapped `error` / `end`);
the consumer loop pops the queue front, yielding data, throwing on an
error item and finishing on the end marker.  The adapter is embedded
as a small-step system: at each step either the next pending transport
event fires (appending to the queue) or the consumer takes a pull step
(popping the queue front if non-empty, otherwise staying parked).  A
schedule is an arbitrary interleaving of the two.
-/

/-- An underlying stream event. -/
inductive StreamEv (α : Type u) where
  | data (a : α)
  | err (e : JsError)
  | fin

/-- A queue item as pushed by the handlers (`error` events are wrapped
by `wrapError` at push time). -/
inductive QItem (α : Type u) where
  | data (a : α)
  | err (e : FlightError)
  | fin

instance {α : Type u} [DecidableEq α] : DecidableEq (QItem α) := fun a b => by
  cases a <;> cases b <;> first
    | exact isTrue rfl
    | (apply isFalse; intro h; exact QItem.noConfusion h)
    | (rename_i x y
       exact if h : x = y then isTrue (by rw [h]) else
         isFalse (fun hc => h (by cases hc; rfl)))

/-- The handler push: `data` passes through, `error` is wrapped. -/
def toQItem {α : Type u} : StreamEv α → QItem α
  | .data a => .data a
  | .err e => .err (FlightError.fromGrpcError e)
  | .fin => .fin

/-- How the consumer's iteration ends. -/
inductive StreamOutcome where
  | ended
  | errored (e : FlightError)
  deriving DecidableEq

/-- State of the bridge: events not yet fired, the FIFO queue, the
items yielded to the consumer so far, and the termination outcome
(`none` while the iteration is live). -/
structure BridgeState (α : Type u) where
  pending : List (StreamEv α)
  queue : List (QItem α)
  consumed : List α
  outcome : Option StreamOutcome

/-- Initial bridge state for a given underlying event sequence. -/
def initBridge {α : Type u} (events : List (StreamEv α)) : BridgeState α :=
  { pending := events, queue := [], consumed := [], outcome := none }

/-- One scheduling step: `true` fires the next pending transport event
(handlers keep running even after the iteration ended); `false` is a
consumer pull, which pops the queue front — yielding data, recording
the error outcome, or recording normal termination — and is a no-op
when the queue is empty (parked waiter) or the iteration has ended. -/
def bridgeStep {α : Type u} (choice : Bool) (s : BridgeState α) : BridgeState α :=
  if choice then
    match s.pending with
    | [] => s
    | e :: rest => { s with pending := rest, queue := s.queue ++ [toQItem e] }
  else
    if s.outcome.isSome then s
    else
      match s.queue with
      | [] => s
      | .data a :: rest => { s with queue := rest, consumed := s.consumed ++ [a] }
      | .err e :: rest => { s with queue := rest, outcome := some (.errored e) }
      | .fin :: rest => { s with queue := rest, outcome := some .ended }

/-- Run the bridge under an arbitrary schedule. -/
def runBridge {α : Type u} (sched : List Bool) (s : BridgeState α) : BridgeState α :=
  sched.foldl (fun s c => bridgeStep c s) s

/-- The outcome the consumer must reach for a given terminal event. -/
def terminalOutcome {α : Type u} : StreamEv α → StreamOutcome
  | .data _ => .ended
  | .err e => .errored (FlightError.fromGrpcError e)
  | .fin => .ended

/-! ## IPC reframing (`src/src/ipc.ts` 52–133) -/

/-- The IPC continuation token `0xFFFFFFFF`. -/
def IPC_CONTINUATION_TOKEN : Nat := 0xffffffff

/-- Little-endian 4-byte encoding, as written by
`DataView.setUint32(offset, n, true)`. -/
def le32 (n : Nat) : List Nat :=
  [n % 256, n / 256 % 256, n / 65536 % 256, n / 16777216 % 256]

/-- The `dataHeader` / `dataBody` byte fields of a `FlightData` chunk
(its other fields are not read by the reframer). -/
structure FlightData where
  dataHeader : List Nat
  dataBody : List Nat

/-- Embedding of `calculatePadding` (`ipc.ts` 130–133). -/
def calculatePadding (length : Nat) : Nat :=
  let remainder := length % 8
  if remainder = 0 then 0 else 8 - remainder

/-- The bytes written for one chunk of the reframing loop
(`ipc.ts` 69–93): continuation token, header length, header bytes,
zero padding (the buffer is zero-initialized, so skipped offsets are
zero bytes), body bytes; a chunk with an empty header writes nothing. -/
def encodeFlightDataChunk (d : FlightData) : List Nat :=
  if 0 < d.dataHeader.length then
    le32 IPC_CONTINUATION_TOKEN ++ le32 d.dataHeader.length ++ d.dataHeader ++
      List.replicate (calculatePadding d.dataHeader.length) 0 ++ d.dataBody
  else []

/-- The allocation size computed by the first loop of
`flightDataToIpc` (`ipc.ts` 54–62). -/
def ipcTotalSize (flightData : List FlightData) : Nat :=
  flightData.foldl
    (fun acc d =>
      if 0 < d.dataHeader.length then
        acc + (4 + 4 + d.dataHeader.length + calculatePadding d.dataHeader.length +
          d.dataBody.length)
      else acc)
    0

/-- Embedding of `flightDataToIpc` (`ipc.ts` 52–96): the sequential
writes into the pre-allocated buffer concatenate the per-chunk
blocks. -/
def flightDataToIpc (flightData : List FlightData) : List Nat :=
  (flightData.map encodeFlightDataChunk).flatten

/-! ## cancelFlightInfo (`client.ts` 1383–1399) and `fromCancelStatusProto`
(`client.ts` 1958–1970) -/

/-- The public cancel status union. -/
inductive CancelStatus where
  | unspecified
  | cancelled
  | cancelling
  | notCancellable
  deriving DecidableEq, Repr

/-- Embedding of `fromCancelStatusProto`: proto enum value to public
status, defaulting to `unspecified`. -/
def fromCancelStatusProto (status : Int) : CancelStatus :=
  if status = 1 then .cancelled
  else if status = 2 then .cancelling
  else if status = 3 then .notCancellable
  else .unspecified

/-- A `Result` message from a `doAction` stream (opaque body bytes). -/
structure ResultMsg where
  body : List Nat

/-- An `Action` request: type tag and opaque body bytes. -/
structure ActionReq where
  type : String
  body : List Nat

/-- Embedding of `cancelFlightInfo` (`client.ts` 1383–1399).  The
generated protobuf codecs (`CancelFlightInfoRequest.encode`,
`CancelFlightInfoResult.decode`) and the server's action results are
external collaborators, passed in as `encodeRequest`, `decodeStatus`
(the `.status` field of the decoded first result) and `runAction` (the
result sequence produced by `doAction` for the issued action).  The
first result, if any, is decoded and mapped; zero results yield
`unspecified`. -/
def cancelFlightInfo {Info : Type} (encodeRequest : Info → List Nat)
    (decodeStatus : List Nat → Int) (runAction : ActionReq → List ResultMsg)
    (info : Info) : CancelStatus :=
  let body := encodeRequest info
  let action : ActionReq := { type := "CancelFlightInfo", body := body }
  match runAction action with
  | [] => .unspecified
  | r :: _ => fromCancelStatusProto (decodeStatus r.body)

/-! ## Location parsing (`src/unnamed/part_006`) -/

/-- The parsed location record. -/
structure ParsedLocation where
  uri : String
  scheme : String
  host : String
  port : Option Nat := none
  secure : Bool
  reuseConnection : Bool
  deriving DecidableEq, Repr

/-- The sentinel reuse-connection URI. -/
def REUSE_CONNECTION_URI : String := "arrow-flight-reuse-connection://?"

/-- The `VALID_SCHEMES` set. -/
def VALID_SCHEMES : List String :=
  ["grpc", "grpc+tls", "grpc+unix", "http", "https", "arrow-flight-reuse-connection"]

/-- Model of `Number.parseInt(s, 10)` on the digit strings produced by
the URL parser. -/
def jsParseIntNat (s : String) : Nat :=
  s.data.foldl (fun acc c => acc * 10 + (c.toNat - 48)) 0

/-- The fields of a WHATWG `URL` read by `parseLocation`. -/
structure UrlParts where
  protocol : String
  hostname : String
  port : String
  pathname : String
  deriving DecidableEq, Repr

/-- Model of the external WHATWG `URL` constructor, restricted to the
non-special `scheme://host[:port][/path]` URIs exercised by the flight
location schemes (for non-special schemes the port is kept verbatim
and the host is taken as written). -/
def urlParse (uri : String) : Option UrlParts :=
  match strSplitOn uri "://" with
  | [scheme, rest] =>
    if scheme = "" then none
    else
      let hostPort := (strSplitOn rest "/").headD ""
      let pathname := strDrop rest hostPort.length
      match strSplitOn hostPort ":" with
      | [h] => some { protocol := scheme ++ ":", hostname := h, port := "", pathname := pathname }
      | [h, p] =>
        some { protocol := scheme ++ ":", hostname := h, port := p, pathname := pathname }
      | _ => none
  | _ => none

/-- Embedding of `parseLocation` (`part_006` 81–127): empty string or
the sentinel URI mean connection reuse; otherwise parse the URI,
validate the scheme, pick the host (pathname for Unix sockets), parse
the port when present (`Number.parseInt` on the digit strings produced
by the URL parser), and mark `grpc+tls` / `https` as secure. -/
def parseLocation (uri : String) : Except String ParsedLocation :=
  if uri = "" ∨ uri = REUSE_CONNECTION_URI then
    .ok
      { uri := if uri = "" then REUSE_CONNECTION_URI else uri
        scheme := "arrow-flight-reuse-connection"
        host := ""
        secure := false
        reuseConnection := true }
  else
    match urlParse uri with
    | none => .error ("invalid uri: " ++ uri)
    | some parsed =>
      let schemeRaw := strDropRight parsed.protocol 1
      if VALID_SCHEMES.contains schemeRaw then
        let host := if schemeRaw = "grpc+unix" then parsed.pathname else parsed.hostname
        let port := if parsed.port = "" then none else some (jsParseIntNat parsed.port)
        let secure := schemeRaw == "grpc+tls" || schemeRaw == "https"
        .ok
          { uri := uri
            scheme := schemeRaw
            host := host
            port := port
            secure := secure
            reuseConnection := false }
      else .error ("unsupported scheme: " ++ schemeRaw)

/-! ## Verification-support definitions -/

instance {ε α : Type} [DecidableEq ε] [DecidableEq α] : DecidableEq (Except ε α) := fun a b => by
  cases a <;> cases b <;> first
    | (apply isFalse; intro h; exact Except.noConfusion h)
    | (rename_i x y
       exact if h : x = y then isTrue (by rw [h]) else
         isFalse (fun hc => h (by cases hc; rfl)))

/-- Invariant of the stream-bridge step system, for an underlying
event sequence of data items `datas` followed by one terminal event
whose queue item is `tq` and whose consumer outcome is `tout`: while
the iteration is live, the consumed items, the queue and the unfired
events concatenate to the full translated event sequence; once it has
ended, the consumer saw exactly `datas` and the recorded outcome is
`tout`. -/
def BridgeInv {α : Type} (datas : List α) (tq : QItem α) (tout : StreamOutcome)
    (s : BridgeState α) : Prop :=
  match s.outcome with
  | none =>
    s.consumed.map QItem.data ++ s.queue ++ s.pending.map toQItem =
      datas.map QItem.data ++ [tq]
  | some r => s.consumed = datas ∧ r = tout

/-! ## Helper lemmas -/

theorem lowerStr_append (s t : String) : lowerStr (s ++ t) = lowerStr s ++ lowerStr t := by
  cases s with
  | mk a =>
    cases t with
    | mk b => exact congrArg String.mk (List.map_append Char.toLower a b)

theorem charsLead_append_self (p r : List Char) : charsLead p (p ++ r) = true := by
  induction p with
  | nil => rfl
  | cons c cs ih => simp [charsLead, ih]

theorem strStartsWith_bearer (t : String) :
    strStartsWith (lowerStr ("Bearer " ++ t)) "bearer " = true := by
  rw [lowerStr_append, show lowerStr "Bearer " = "bearer " from by decide]
  exact charsLead_append_self "bearer ".data (t.data.map Char.toLower)

theorem strDrop_bearer (t : String) : strDrop ("Bearer " ++ t) 7 = t := by
  cases t with
  | mk d => exact congrArg String.mk (List.drop_left "Bearer ".data d)

theorem calculatePadding_eq (n : Nat) : calculatePadding n = (8 - n % 8) % 8 := by
  have h8 : n % 8 < 8 := Nat.mod_lt _ (by norm_num)
  simp only [calculatePadding]
  split_ifs <;> omega

theorem le32_marker : le32 IPC_CONTINUATION_TOKEN = [255, 255, 255, 255] := by decide

theorem mdGet_mdSet_ne (m : GrpcMetadata) (k v q : String) (h : lowerStr k ≠ lowerStr q) :
    mdGet (mdSet m k v) q = mdGet m q := by
  unfold mdGet mdSet
  rw [List.filter_append]
  have hkq : ((lowerStr k : String) == lowerStr q) = false := beq_eq_false_iff_ne.mpr h
  have h1 : List.filter (fun e => e.1 == lowerStr q) [(lowerStr k, v)] = [] := by
    simp [List.filter, hkq]
  have h2 :
      List.filter (fun e => e.1 == lowerStr q)
          (List.filter (fun e => e.1 != lowerStr k) m) =
        List.filter (fun e => e.1 == lowerStr q) m := by
    induction m with
    | nil => rfl
    | cons e es ih =>
      by_cases he : e.1 = lowerStr k
      · have hne : (e.1 != lowerStr k) = false := by simp [bne, he]
        have hq : (e.1 == lowerStr q) = false := by rw [he]; exact hkq
        simp [List.filter, hne, hq, ih]
      · have hne : (e.1 != lowerStr k) = true := by simp [bne, he]
        cases heq : (e.1 == lowerStr q) <;> simp [List.filter, hne, heq, ih]
  rw [h1, h2, List.append_nil]

theorem mdGet_foldl_ne (headers : List (String × String)) (m : GrpcMetadata)
    (h : ∀ e ∈ headers, lowerStr e.1 ≠ "authorization") :
    mdGet (headers.foldl (fun m e => mdSet m e.1 e.2) m) "authorization" =
      mdGet m "authorization" := by
  induction headers generalizing m with
  | nil => rfl
  | cons e es ih =>
    rw [List.foldl_cons, ih _ (fun x hx => h x (List.mem_cons_of_mem e hx))]
    exact mdGet_mdSet_ne m e.1 e.2 "authorization"
      (by rw [show lowerStr "authorization" = "authorization" from by decide]
          exact h e (List.mem_cons_self e es))

theorem mdGet_set_auth (v : String) :
    mdGet (mdSet [] "authorization" v) "authorization" = [v] := by
  simp [mdGet, mdSet, List.filter]

/-! ## Claim theorems -/

/-- C1 (counterexample): in the `createMetadata` at `client.ts`
211–236, a client with bearer token `"tok"` and configured basic auth
`user`/`pass` gets the configured-auth-derived authorization header,
not the bearer-token-derived one. -/
theorem createMetadataV1_config_auth_overwrites_bearer :
    mdGet (createMetadataV1 (some "tok") (some (.basic "user" "pass")) []) "authorization" =
        ["Basic dXNlcjpwYXNz"] ∧
      mdGet (createMetadataV1 (some "tok") (some (.basic "user" "pass")) []) "authorization" ≠
        ["Bearer tok"] := by
  decide

/-- C1 (amended): in the `createMetadata` at `client.ts` 952–977, for
every client whose bearer token is set and whose configured auth is
basic or bearer, and any caller headers not named `authorization`,
exactly one authorization header is emitted and it is the
bearer-token-derived one, `Bearer <token>`. -/
theorem createMetadataV2_bearer_token_precedence
    (t : String) (auth : FlightAuth) (headers : List (String × String))
    (_hauth : (∃ u p, auth = .basic u p) ∨ (∃ s, auth = .bearer s))
    (hheaders : ∀ e ∈ headers, lowerStr e.1 ≠ "authorization") :
    mdGet (createMetadataV2 (some t) (some auth) headers) "authorization" = ["Bearer " ++ t] := by
  simp only [createMetadataV2]
  rw [mdGet_foldl_ne headers _ hheaders, mdGet_set_auth]

/-- C1 (witness): concrete instance of the bearer-token precedence
with a configured bearer auth and one unrelated caller header. -/
theorem createMetadataV2_bearer_token_precedence_witness :
    ((∃ u p, FlightAuth.bearer "cfg" = FlightAuth.basic u p) ∨
        (∃ s, FlightAuth.bearer "cfg" = FlightAuth.bearer s)) ∧
      (∀ e ∈ [("x-trace-id", "1")], lowerStr e.1 ≠ "authorization") ∧
      mdGet (createMetadataV2 (some "tok") (some (.bearer "cfg")) [("x-trace-id", "1")])
          "authorization" = ["Bearer " ++ "tok"] :=
  ⟨Or.inr ⟨"cfg", rfl⟩, by decide,
    createMetadataV2_bearer_token_precedence "tok" (.bearer "cfg") [("x-trace-id", "1")]
      (Or.inr ⟨"cfg", rfl⟩) (by decide)⟩

/-- C5: the transport-status-to-error-kind mapping is total: each of
the sixteen codes 1–16 maps to its named kind, and every code outside
1–16 maps to `UNKNOWN`. -/
theorem grpcStatusToFlightCode_total_mapping :
    (∀ code : Int, code < 1 ∨ 16 < code → grpcStatusToFlightCode code = .UNKNOWN) ∧
      grpcStatusToFlightCode 1 = .CANCELLED ∧
      grpcStatusToFlightCode 2 = .UNKNOWN ∧
      grpcStatusToFlightCode 3 = .INVALID_ARGUMENT ∧
      grpcStatusToFlightCode 4 = .DEADLINE_EXCEEDED ∧
      grpcStatusToFlightCode 5 = .NOT_FOUND ∧
      grpcStatusToFlightCode 6 = .ALREADY_EXISTS ∧
      grpcStatusToFlightCode 7 = .PERMISSION_DENIED ∧
      grpcStatusToFlightCode 8 = .RESOURCE_EXHAUSTED ∧
      grpcStatusToFlightCode 9 = .FAILED_PRECONDITION ∧
      grpcStatusToFlightCode 10 = .ABORTED ∧
      grpcStatusToFlightCode 11 = .OUT_OF_RANGE ∧
      grpcStatusToFlightCode 12 = .UNIMPLEMENTED ∧
      grpcStatusToFlightCode 13 = .INTERNAL ∧
      grpcStatusToFlightCode 14 = .UNAVAILABLE ∧
      grpcStatusToFlightCode 15 = .DATA_LOSS ∧
      grpcStatusToFlightCode 16 = .UNAUTHENTICATED := by
  refine ⟨fun code hc => ?_, ?_⟩
  · have hn : ∀ k : Int, 1 ≤ k → k ≤ 16 → ¬code = k := by omega
    simp only [grpcStatusToFlightCode]
    rw [if_neg (hn 1 (by norm_num) (by norm_num)), if_neg (hn 2 (by norm_num) (by norm_num)),
      if_neg (hn 3 (by norm_num) (by norm_num)), if_neg (hn 4 (by norm_num) (by norm_num)),
      if_neg (hn 5 (by norm_num) (by norm_num)), if_neg (hn 6 (by norm_num) (by norm_num)),
      if_neg (hn 7 (by norm_num) (by norm_num)), if_neg (hn 8 (by norm_num) (by norm_num)),
      if_neg (hn 9 (by norm_num) (by norm_num)), if_neg (hn 10 (by norm_num) (by norm_num)),
      if_neg (hn 11 (by norm_num) (by norm_num)), if_neg (hn 12 (by norm_num) (by norm_num)),
      if_neg (hn 13 (by norm_num) (by norm_num)), if_neg (hn 14 (by norm_num) (by norm_num)),
      if_neg (hn 15 (by norm_num) (by norm_num)), if_neg (hn 16 (by norm_num) (by norm_num))]
  · decide

/-- C5 (witness): an out-of-range status code maps to `UNKNOWN`. -/
theorem grpcStatusToFlightCode_total_mapping_witness :
    ((42 : Int) < 1 ∨ 16 < (42 : Int)) ∧ grpcStatusToFlightCode 42 = .UNKNOWN :=
  ⟨Or.inr (by norm_num),
    grpcStatusToFlightCode_total_mapping.1 42 (Or.inr (by norm_num))⟩

/-- C9: `parseLocation` on `grpc+tls://flight.example.com:443` yields
scheme `grpc+tls`, host `flight.example.com`, port 443, secure, not
reuse; on the empty string it yields the reuse-connection location
with empty host and `secure := false`. -/
theorem parseLocation_scenarios :
    parseLocation "grpc+tls://flight.example.com:443" =
        .ok
          { uri := "grpc+tls://flight.example.com:443"
            scheme := "grpc+tls"
            host := "flight.example.com"
            port := some 443
            secure := true
            reuseConnection := false } ∧
      parseLocation "" =
        .ok
          { uri := "arrow-flight-reuse-connection://?"
            scheme := "arrow-flight-reuse-connection"
            host := ""
            port := none
            secure := false
            reuseConnection := true } := by
  constructor <;> decide

/-- C10: with no configured port, `address` appends `:443` whenever
`tls` is not exactly `false` and `:80` when it is; a configured port
is used verbatim regardless of `tls`. -/
theorem address_port_defaulting (o : FlightClientOptions) :
    (o.port = none → o.tls ≠ .flag false → address o = o.host ++ ":" ++ "443") ∧
      (o.port = none → o.tls = .flag false → address o = o.host ++ ":" ++ "80") ∧
      (∀ p, o.port = some p → address o = o.host ++ ":" ++ toString p) := by
  refine ⟨fun h1 h2 => ?_, fun h1 h2 => ?_, fun p hp => ?_⟩
  · have ht : tlsNotFalse o.tls = true := by
      cases htls : o.tls with
      | flag b =>
        cases b
        · exact absurd htls h2
        · rfl
      | unset => rfl
      | tlsOpts => rfl
    simp only [address, h1, ht, Option.getD, if_true]
    rfl
  · simp only [address, h1, h2, tlsNotFalse, Option.getD, if_false]
    rfl
  · simp [address, hp]

/-- C10 (witness): concrete instances of the three port rules. -/
theorem address_port_defaulting_witness :
    address { host := "h" } = "h" ++ ":" ++ "443" ∧
      address { host := "h", tls := .flag false } = "h" ++ ":" ++ "80" ∧
      address { host := "h", port := some 8815, tls := .flag false } =
        "h" ++ ":" ++ toString 8815 :=
  ⟨(address_port_defaulting { host := "h" }).1 rfl (by decide),
    (address_port_defaulting { host := "h", tls := .flag false }).2.1 rfl rfl,
    (address_port_defaulting { host := "h", port := some 8815, tls := .flag false }).2.2
      8815 rfl⟩

/-- C2: the connection state machine: `connect()` from `disconnected`
moves to `connected` on success and back to `disconnected` on any
failure; `close()` from any state ends in `closed` with the bearer
token cleared; `connect()` on a closed session fails with the
FAILED_PRECONDITION local error without mutating state. -/
theorem connect_close_state_machine (env : ConnectEnv) (c : ClientState) :
    (c.state = .disconnected →
      connect .ready c = ({ c with state := .connected, grpcClient := some () }, .ok ()) ∧
        ∀ e, connect (.failWith e) c =
          ({ c with state := .disconnected, grpcClient := some () },
            .error (FlightError.fromGrpcError e))) ∧
      ((close c).state = .closed ∧ (close c).bearerToken = none) ∧
      (c.state = .closed →
        connect env c =
          (c, .error { message := "client has been closed", code := .FAILED_PRECONDITION })) := by
  refine ⟨fun h => ⟨?_, fun e => ?_⟩, ⟨rfl, rfl⟩, fun h => ?_⟩ <;> simp [connect, h]

/-- C2 (witness): a fresh session connects successfully; closing it
clears the token; connecting a closed session fails without change. -/
theorem connect_close_state_machine_witness :
    (({} : ClientState).state = .disconnected) ∧
      connect .ready {} = (({ state := .connected, grpcClient := some () } : ClientState),
        .ok ()) ∧
      ((close {}).state = .closed ∧ (close {}).bearerToken = none) ∧
      ((close ({} : ClientState)).state = .closed) ∧
      connect .ready (close {}) =
        (close {},
          .error { message := "client has been closed", code := .FAILED_PRECONDITION }) :=
  ⟨rfl, ((connect_close_state_machine .ready {}).1 rfl).1,
    (connect_close_state_machine .ready {}).2.1, rfl,
    (connect_close_state_machine .ready (close {})).2.2 rfl⟩

/-- C6: for a transport error with a numeric status code, the mapped
error prefers non-empty `details` over `message` as its text, keeps
the raw status code, and its metadata consists of exactly the
string-valued transport metadata entries — none at all when only
binary entries are present. -/
theorem fromGrpcError_details_and_string_metadata (e : GrpcServiceError) :
    (FlightError.fromGrpcError (.grpcService e)).message =
        (if 0 < e.details.length then e.details else e.message) ∧
      (FlightError.fromGrpcError (.grpcService e)).grpcCode = some e.code ∧
      (FlightError.fromGrpcError (.grpcService e)).code = grpcStatusToFlightCode e.code ∧
      ∀ m, e.metadata = some m →
        ((stringEntries m = [] → (FlightError.fromGrpcError (.grpcService e)).metadata = none) ∧
          (stringEntries m ≠ [] →
            (FlightError.fromGrpcError (.grpcService e)).metadata = some (stringEntries m))) := by
  refine ⟨rfl, rfl, rfl, fun m hm => ⟨fun hs => ?_, fun hs => ?_⟩⟩
  · show extractGrpcMetadata e.metadata = none
    rw [hm]
    show (if (stringEntries m).isEmpty then none else some (stringEntries m)) = none
    simp [hs]
  · have hb : (stringEntries m).isEmpty = false := by
      cases hse : stringEntries m with
      | nil => exact absurd hse hs
      | cons a as => rfl
    show extractGrpcMetadata e.metadata = some (stringEntries m)
    rw [hm]
    show (if (stringEntries m).isEmpty then none else some (stringEntries m)) =
      some (stringEntries m)
    simp [hb]

/-- C6 (witness): a transport error whose metadata holds one string
entry and one binary entry maps to metadata with exactly the string
entry. -/
theorem fromGrpcError_details_and_string_metadata_witness :
    stringEntries [("k1", MetaVal.str "v1"), ("k2", MetaVal.bin [1, 2])] ≠ [] ∧
      (FlightError.fromGrpcError (.grpcService
          { code := 3, message := "msg", details := "det",
            metadata := some [("k1", MetaVal.str "v1"), ("k2", MetaVal.bin [1, 2])] })).metadata =
        some (stringEntries [("k1", MetaVal.str "v1"), ("k2", MetaVal.bin [1, 2])]) :=
  ⟨by decide,
    ((fromGrpcError_details_and_string_metadata _).2.2.2 _ rfl).2 (by decide)⟩

/-- C7: the reframing emits, for each chunk with non-empty header, the
block `[4-byte all-bits-set marker][4-byte LE header length][header]
[zero padding to 8 bytes][body]`; chunks with an empty header emit
nothing; the empty input gives empty output; and the output length is
the sum of `8 + header + pad(header) + body` over non-skipped
chunks. -/
theorem flightDataToIpc_framing :
    flightDataToIpc [] = [] ∧
      (∀ (d : FlightData) (rest : List FlightData),
        flightDataToIpc (d :: rest) =
          (if d.dataHeader = [] then []
            else
              [255, 255, 255, 255] ++ le32 d.dataHeader.length ++ d.dataHeader ++
                List.replicate ((8 - d.dataHeader.length % 8) % 8) 0 ++ d.dataBody) ++
            flightDataToIpc rest) ∧
      ∀ chunks : List FlightData,
        (flightDataToIpc chunks).length =
          (chunks.map fun d =>
            if d.dataHeader = [] then 0
            else
              8 + d.dataHeader.length + (8 - d.dataHeader.length % 8) % 8 +
                d.dataBody.length).sum := by
  refine ⟨rfl, fun d rest => ?_, fun chunks => ?_⟩
  · show (List.map encodeFlightDataChunk (d :: rest)).flatten = _
    rw [List.map_cons, List.flatten_cons]
    congr 1
    by_cases hne : d.dataHeader = []
    · simp [encodeFlightDataChunk, hne]
    · have hlen : 0 < d.dataHeader.length := List.length_pos.mpr hne
      rw [if_neg hne]
      unfold encodeFlightDataChunk
      rw [if_pos hlen, le32_marker, calculatePadding_eq]
  · induction chunks with
    | nil => rfl
    | cons d rest ih =>
      show ((List.map encodeFlightDataChunk (d :: rest)).flatten).length = _
      rw [List.map_cons, List.flatten_cons, List.length_append, List.map_cons, List.sum_cons]
      have ih2 : (List.map encodeFlightDataChunk rest).flatten.length =
          (rest.map fun d =>
            if d.dataHeader = [] then 0
            else
              8 + d.dataHeader.length + (8 - d.dataHeader.length % 8) % 8 +
                d.dataBody.length).sum := ih
      rw [ih2]
      congr 1
      by_cases hne : d.dataHeader = []
      · simp [encodeFlightDataChunk, hne]
      · have hlen : 0 < d.dataHeader.length := List.length_pos.mpr hne
        unfold encodeFlightDataChunk
        rw [if_pos hlen, if_neg hne]
        rw [calculatePadding_eq]
        simp [le32]
        omega

/-- C8: `cancelFlightInfo` issues a `CancelFlightInfo` action with the
encoded request body, decodes at most the first arriving result, and
reports `unspecified` when the action yields zero results. -/
theorem cancelFlightInfo_first_result_or_unspecified {Info : Type}
    (encodeRequest : Info → Bytes) (decodeStatus : Bytes → Int)
    (runAction : ActionReq → List ResultMsg) (info : Info) :
    (runAction { type := "CancelFlightInfo", body := encodeRequest info } = [] →
      cancelFlightInfo encodeRequest decodeStatus runAction info = .unspecified) ∧
      ∀ r rest,
        runAction { type := "CancelFlightInfo", body := encodeRequest info } = r :: rest →
        cancelFlightInfo encodeRequest decodeStatus runAction info =
          fromCancelStatusProto (decodeStatus r.body) := by
  constructor
  · intro h
    simp [cancelFlightInfo, h]
  · intro r rest h
    simp [cancelFlightInfo, h]

/-- C8 (witness): an action call yielding zero results reports
`unspecified`. -/
theorem cancelFlightInfo_first_result_or_unspecified_witness :
    (fun _ : ActionReq => ([] : List ResultMsg))
        { type := "CancelFlightInfo", body := (fun _ : Unit => ([7] : Bytes)) () } = [] ∧
      cancelFlightInfo (fun _ : Unit => ([7] : Bytes)) (fun _ => 1)
        (fun _ => ([] : List ResultMsg)) () = .unspecified :=
  ⟨rfl,
    (cancelFlightInfo_first_result_or_unspecified (fun _ : Unit => ([7] : Bytes)) (fun _ => 1)
        (fun _ => ([] : List ResultMsg)) ()).1 rfl⟩

/-- C3: a handshake whose response metadata carries
`authorization: Bearer t` and whose single response has no payload
resolves with token `t`, installed on the session before the promise
resolves; extraction precedence is authorization header, then the
binary token field, then the payload bytes as a raw UTF-8 token. -/
theorem handshake_token_extraction (c : ClientState) (t s : String) (pv : Nat) (b p : Bytes) :
    ((runHandshake c [.meta [("authorization", .str ("Bearer " ++ t))],
          .data { protocolVersion := pv, payload := [] }, .fin]).settled =
        some (.ok { protocolVersion := pv, payload := [], token := some t }) ∧
      (runHandshake c [.meta [("authorization", .str ("Bearer " ++ t))],
          .data { protocolVersion := pv, payload := [] }, .fin]).client =
        { c with bearerToken := some t }) ∧
      extractTokenFromMeta none
          [("authorization", .str ("Bearer " ++ t)), ("auth-token-bin", .bin b)] = some t ∧
      (runHandshake c [.meta [("auth-token-bin", .str s)],
          .data { protocolVersion := pv, payload := p }, .fin]).settled =
        some (.ok { protocolVersion := pv, payload := p, token := some s }) ∧
      (runHandshake c [.data { protocolVersion := pv, payload := p }, .fin]).settled =
        some (.ok
          { protocolVersion := pv
            payload := p
            token := if 0 < p.length then some (utf8Decode p) else none }) := by
  have hx : (("authorization" : String) == "auth-token-bin") = false := by decide
  have hy : (("auth-token-bin" : String) == "authorization") = false := by decide
  refine ⟨⟨?_, ?_⟩, ?_, ?_, ?_⟩ <;>
    simp [runHandshake, hsStep, extractTokenFromMeta, metaGet, jsStringOf, List.filter,
      hx, hy, strStartsWith_bearer, strDrop_bearer]

theorem map_data_append_terminal {α : Type} (tq : QItem α) (_htq : ∀ a, tq ≠ .data a)
    (q : QItem α) (hq : ∀ a, q ≠ .data a) :
    ∀ (consumed datas : List α) (L : List (QItem α)),
      consumed.map QItem.data ++ q :: L = datas.map QItem.data ++ [tq] →
      consumed = datas ∧ q = tq ∧ L = [] := by
  intro consumed
  induction consumed with
  | nil =>
    intro datas L heq
    cases datas with
    | nil =>
      simp at heq
      exact ⟨rfl, heq.1, heq.2⟩
    | cons d ds =>
      simp at heq
      exact absurd heq.1 (hq d)
  | cons c cs ih =>
    intro datas L heq
    cases datas with
    | nil =>
      simp at heq
    | cons d ds =>
      simp at heq
      obtain ⟨hcd, hrest⟩ := heq
      obtain ⟨h1, h2, h3⟩ := ih ds L hrest
      exact ⟨by rw [hcd, h1], h2, h3⟩

theorem toQItem_terminal_ne_data {α : Type} (term : StreamEv α)
    (hterm : term = .fin ∨ ∃ e, term = .err e) :
    ∀ a, toQItem term ≠ QItem.data a := by
  rcases hterm with h1 | ⟨e, h2⟩
  · subst h1
    intro a hc
    exact QItem.noConfusion hc
  · subst h2
    intro a hc
    exact QItem.noConfusion hc

theorem bridgeInv_step {α : Type} (datas : List α) (term : StreamEv α)
    (hterm : term = .fin ∨ ∃ e, term = .err e) (choice : Bool) (s : BridgeState α)
    (h : BridgeInv datas (toQItem term) (terminalOutcome term) s) :
    BridgeInv datas (toQItem term) (terminalOutcome term) (bridgeStep choice s) := by
  have htq := toQItem_terminal_ne_data term hterm
  cases choice with
  | true =>
    cases hp : s.pending with
    | nil => simpa [bridgeStep, hp] using h
    | cons e rest =>
      unfold BridgeInv at h ⊢
      cases ho : s.outcome with
      | none =>
        simp only [bridgeStep, hp, if_true, ho] at h ⊢
        simp only [List.map_cons] at h
        simp [List.append_assoc] at h ⊢
        exact h
      | some r =>
        simp only [bridgeStep, hp, if_true, ho] at h ⊢
        exact h
  | false =>
    cases ho : s.outcome with
    | some r =>
      have : bridgeStep false s = s := by simp [bridgeStep, ho]
      rw [this]
      exact h
    | none =>
      cases hq : s.queue with
      | nil =>
        have : bridgeStep false s = s := by simp [bridgeStep, ho, hq]
        rw [this]
        exact h
      | cons q rest =>
        unfold BridgeInv at h
        rw [ho] at h
        rw [hq] at h
        cases q with
        | data a =>
          unfold BridgeInv
          simp only [bridgeStep, ho, hq, Option.isSome_none, Bool.false_eq_true, if_false]
          simp only [List.map_append, List.map_cons, List.map_nil]
          simp [List.append_assoc] at h ⊢
          exact h
        | err e =>
          have hkey := map_data_append_terminal (toQItem term) htq (QItem.err e)
            (fun a hc => QItem.noConfusion hc) s.consumed datas (rest ++ s.pending.map toQItem)
            (by simpa [List.append_assoc] using h)
          obtain ⟨h1, h2, _⟩ := hkey
          unfold BridgeInv
          simp only [bridgeStep, ho, hq, Option.isSome_none, Bool.false_eq_true, if_false]
          refine ⟨h1, ?_⟩
          rcases hterm with ht | ⟨e0, ht⟩
          · subst ht
            exact absurd h2.symm (fun hc => QItem.noConfusion hc)
          · subst ht
            simp only [toQItem] at h2
            have he : e = FlightError.fromGrpcError e0 := by
              injection h2 with he2
            rw [terminalOutcome, he]
        | fin =>
          have hkey := map_data_append_terminal (toQItem term) htq QItem.fin
            (fun a hc => QItem.noConfusion hc) s.consumed datas (rest ++ s.pending.map toQItem)
            (by simpa [List.append_assoc] using h)
          obtain ⟨h1, h2, _⟩ := hkey
          unfold BridgeInv
          simp only [bridgeStep, ho, hq, Option.isSome_none, Bool.false_eq_true, if_false]
          refine ⟨h1, ?_⟩
          rcases hterm with ht | ⟨e0, ht⟩
          · subst ht
            rfl
          · subst ht
            exact absurd h2.symm (fun hc => QItem.noConfusion hc)

theorem bridgeInv_run {α : Type} (datas : List α) (term : StreamEv α)
    (hterm : term = .fin ∨ ∃ e, term = .err e) (sched : List Bool) (s : BridgeState α)
    (h : BridgeInv datas (toQItem term) (terminalOutcome term) s) :
    BridgeInv datas (toQItem term) (terminalOutcome term) (runBridge sched s) := by
  induction sched generalizing s with
  | nil => exact h
  | cons choice cs ih =>
    unfold runBridge
    rw [List.foldl_cons]
    exact ih _ (bridgeInv_step datas term hterm choice s h)

theorem bridgeInv_init {α : Type} (datas : List α) (term : StreamEv α) :
    BridgeInv datas (toQItem term) (terminalOutcome term)
      (initBridge (datas.map .data ++ [term])) := by
  unfold BridgeInv initBridge
  simp [toQItem, List.map_map, Function.comp]

/-- C4: under any interleaving of event deliveries and consumer pulls,
if the bridged iteration over `N` data events followed by one terminal
event has ended, the consumer observed exactly the `N` data items in
emission order — ending normally for an `end` event and with the
wrapped error for an `error` event, with nothing observable
afterwards. -/
theorem streamBridge_fifo_and_error {α : Type} (datas : List α) (term : StreamEv α)
    (hterm : term = .fin ∨ ∃ e, term = .err e) (sched : List Bool) (r : StreamOutcome)
    (hr : (runBridge sched (initBridge (datas.map .data ++ [term]))).outcome = some r) :
    (runBridge sched (initBridge (datas.map .data ++ [term]))).consumed = datas ∧
      r = terminalOutcome term := by
  have hinv := bridgeInv_run datas term hterm sched _ (bridgeInv_init datas term)
  unfold BridgeInv at hinv
  rw [hr] at hinv
  exact hinv

/-- C4 (witness): a two-data-item stream with an end event, under the
schedule that fires all events then pulls three times, ends normally
with exactly the two items consumed in order. -/
theorem streamBridge_fifo_and_error_witness :
    (runBridge [true, true, true, false, false, false]
        (initBridge (([1, 2].map .data ++ [.fin]) : List (StreamEv Nat)))).outcome =
        some .ended ∧
      (runBridge [true, true, true, false, false, false]
          (initBridge (([1, 2].map .data ++ [.fin]) : List (StreamEv Nat)))).consumed = [1, 2] ∧
      (StreamOutcome.ended = terminalOutcome (StreamEv.fin : StreamEv Nat)) :=
  ⟨by decide,
    (streamBridge_fifo_and_error [1, 2] (StreamEv.fin : StreamEv Nat) (Or.inl rfl)
        [true, true, true, false, false, false] .ended (by decide)).1,
    (streamBridge_fifo_and_error [1, 2] (StreamEv.fin : StreamEv Nat) (Or.inl rfl)
        [true, true, true, false, false, false] .ended (by decide)).2⟩

end ArrowFlight
